import Mathlib

/-!
Shallow embedding of `src/package.py` from the repository
`magisk-replace-default-font-script`.

The script transforms an Android font-configuration XML document
(`ModulePackager.__parse_font_xml`, lines 26-81) and packages the result
into a zip archive (`ModulePackager.package_module`, lines 83-103, driven
by `main`, lines 106-162).

XML elements are modelled as an ordered tree of tag, attribute list,
optional text and children.  Insignificant whitespace text nodes of the
hard-coded XML literal are not modelled: no claim concerns whitespace
inside elements before pretty-printing.  Python dict attributes are
modelled as association lists looked up at the first matching key, with
deletion removing the key (XML forbids duplicate attribute names, so a
dict never holds two entries for one key).
-/

namespace FontModule

/-- An XML element: tag, ordered attributes, optional text, children. -/
inductive Elem where
  | mk (tag : String) (attrib : List (String × String)) (text : Option String)
       (children : List Elem)

def Elem.tag : Elem → String
  | .mk t _ _ _ => t

def Elem.attrib : Elem → List (String × String)
  | .mk _ a _ _ => a

def Elem.text : Elem → Option String
  | .mk _ _ x _ => x

def Elem.children : Elem → List Elem
  | .mk _ _ _ c => c

/-- First value bound to a key in an attribute list (`child.attrib[k]`). -/
def lookupAttr : List (String × String) → String → Option String
  | [], _ => none
  | (k, v) :: rest, key => if k = key then some v else lookupAttr rest key

/-- `del child.attrib[k]` on the association-list model. -/
def Elem.delAttr : Elem → String → Elem
  | .mk t a x c, key => .mk t (a.filter (fun p => p.1 != key)) x c

/-- Lines 35-52: the hard-coded fallback family parsed from the string
literal, face order as written in the source. -/
def sans_serif_family : Elem :=
  .mk "family" [("name", "sans-serif")] none
    [ .mk "font" [("weight", "100"), ("style", "normal")] (some "EmptyFont-Thin.ttf") []
    , .mk "font" [("weight", "100"), ("style", "italic")] (some "EmptyFont-ThinItalic.ttf") []
    , .mk "font" [("weight", "300"), ("style", "normal")] (some "EmptyFont-Light.ttf") []
    , .mk "font" [("weight", "300"), ("style", "italic")] (some "EmptyFont-LightItalic.ttf") []
    , .mk "font" [("weight", "400"), ("style", "normal")] (some "EmptyFont-Regular.ttf") []
    , .mk "font" [("weight", "400"), ("style", "italic")] (some "EmptyFont-Italic.ttf") []
    , .mk "font" [("weight", "500"), ("style", "normal")] (some "EmptyFont-Medium.ttf") []
    , .mk "font" [("weight", "500"), ("style", "italic")] (some "EmptyFont-MediumItalic.ttf") []
    , .mk "font" [("weight", "900"), ("style", "normal")] (some "EmptyFont-Black.ttf") []
    , .mk "font" [("weight", "900"), ("style", "italic")] (some "EmptyFont-BlackItalic.ttf") []
    , .mk "font" [("weight", "700"), ("style", "normal")] (some "EmptyFont-Bold.ttf") []
    , .mk "font" [("weight", "700"), ("style", "italic")] (some "EmptyFont-BoldItalic.ttf") []
    ]

/-- `range(100, 1000, 100)` from lines 57 and 70. -/
def fontWeights : List Nat := [100, 200, 300, 400, 500, 600, 700, 800, 900]

/-- One `<font weight=".." style="normal">fname</font>` element
(lines 58-59 and 71-72). -/
def mkWeightFont (w : Nat) (fname : String) : Elem :=
  .mk "font" [("weight", toString w), ("style", "normal")] (some fname) []

/-- Lines 55-61: the custom family, nine faces, no attributes. -/
def custom_family (fname : String) : Elem :=
  .mk "family" [] none (fontWeights.map (fun w => mkWeightFont w fname))

/-- Lines 69-74: the language-tagged family built before insertion. -/
def family_with_lang (fname : String) : Elem :=
  .mk "family" [("lang", "zh-Hans")] none
    (fontWeights.map (fun w => mkWeightFont w fname))

/-- Lines 65-67 as a function: a family child whose `name` attribute is
`sans-serif` loses that attribute, any other child is unchanged. -/
def stripSans (e : Elem) : Elem :=
  if e.tag = "family" ∧ lookupAttr e.attrib "name" = some "sans-serif" then
    e.delAttr "name"
  else e

/-- Lines 63-76: the loop over the top-level children of the base
document, threading the `family_with_lang_inserted` flag. -/
def processChildren (fname : String) : Bool → List Elem → List Elem
  | _, [] => []
  | inserted, child :: rest =>
    if child.tag = "family" then
      let child1 :=
        if lookupAttr child.attrib "name" = some "sans-serif" then
          child.delAttr "name"
        else child
      if (lookupAttr child1.attrib "lang").isSome ∧ inserted = false then
        family_with_lang fname :: child1 :: processChildren fname true rest
      else
        child1 :: processChildren fname inserted rest
    else
      child :: processChildren fname inserted rest

/-- Lines 26-76: the tree assembled by `__parse_font_xml` before
serialization, from the parsed base document root and the stored font
file name. -/
def parse_font_xml (root : Elem) (font_file_name : String) : Elem :=
  .mk "familyset" [("version", "23")] none
    (sans_serif_family :: custom_family font_file_name ::
      processChildren font_file_name false root.children)

/-- `os.path.basename` on a POSIX path (line 21): everything after the
last slash, empty when the path ends in a slash. -/
def basename (p : String) : String :=
  String.mk (p.data.foldl (fun acc c => if c = '/' then [] else acc ++ [c]) [])

/-- Number of `family`-tagged elements in a list of children. -/
def countFamilies (l : List Elem) : Nat :=
  (l.filter (fun e => e.tag == "family")).length

/-- Does some `family`-tagged child carry a `lang` attribute? -/
def anyFamilyLang (l : List Elem) : Bool :=
  l.any (fun e => e.tag == "family" && (lookupAttr e.attrib "lang").isSome)

/-! ## Effect-trace model of the packaging pipeline

`package_module` (lines 83-103) runs inside one `TemporaryDirectory`
scope: copy the template tree, copy the font file, write `module.prop`,
parse and write `fonts.xml`, then build the zip archive; the first
raised exception aborts the remaining steps and the scope removes the
staging directory on every exit path.  `main` (lines 106-162) checks the
font path before constructing the packager.  Filesystem and parsing
outcomes are abstracted as booleans; the model records which effects
happen and in which order. -/

/-- Observable effects of one program run. -/
inductive Event where
  | printMsg (s : String)
  | exited (code : Int)
  | tempDirCreated
  | templateCopied
  | fontCopied
  | propWritten
  | xmlParsed
  | xmlWritten
  | archiveWritten
  | tempDirRemoved
  | archiveCopiedToCwd
deriving DecidableEq

/-- Abstract outcomes of the runtime checks and fallible operations. -/
structure Env where
  fontConfigExists : Bool
  fontArgGiven : Bool
  fontExists : Bool
  copytreeOk : Bool
  copyFontOk : Bool
  propWriteOk : Bool
  parseOk : Bool
  xmlWriteOk : Bool
  archiveOk : Bool

/-- Run steps in order; the first failing step stops the run with no
further events (a raised exception propagates). -/
def runSteps : List (Bool × Event) → List Event × Bool
  | [] => ([], true)
  | (ok, ev) :: rest =>
    if ok then
      let r := runSteps rest
      (ev :: r.1, r.2)
    else ([], false)

/-- Lines 83-103: the staging steps of `package_module` in source order,
wrapped in the temporary-directory scope.  Parsing the base document
(line 27, reached from line 94) happens before the transformed bytes are
written. -/
def packageModuleRun (env : Env) : List Event × Bool :=
  let r := runSteps
    [ (env.copytreeOk, .templateCopied)
    , (env.copyFontOk, .fontCopied)
    , (env.propWriteOk, .propWritten)
    , (env.parseOk, .xmlParsed)
    , (env.xmlWriteOk, .xmlWritten)
    , (env.archiveOk, .archiveWritten) ]
  (Event.tempDirCreated :: r.1 ++ [Event.tempDirRemoved], r.2)

/-- Lines 106-162: `main`.  A missing font-config path only prints; a
missing or unset font file prints and exits with code `-1` before the
packager is constructed; otherwise `package_module` runs and, when it
returns, the archive is copied next to the script. -/
def mainEvents (env : Env) : List Event :=
  (if env.fontConfigExists then []
   else [Event.printMsg "Font config file not exists!"]) ++
  if env.fontArgGiven = false ∨ env.fontExists = false then
    [Event.printMsg "No font file set or font file not exists!", Event.exited (-1)]
  else
    let r := packageModuleRun env
    r.1 ++ (if r.2 then [Event.archiveCopiedToCwd] else [])

/-! ## Basic lemmas about the embedded transform -/

theorem lookupAttr_filter_ne (l : List (String × String)) (k k' : String)
    (h : k' ≠ k) :
    lookupAttr (l.filter (fun p => p.1 != k)) k' = lookupAttr l k' := by
  induction l with
  | nil => rfl
  | cons p rest ih =>
    by_cases hp : p.1 = k
    · rcases p with ⟨a, b⟩
      have ha : a = k := hp
      subst ha
      have hfil :
          List.filter (fun p => p.1 != a) ((a, b) :: rest) =
            List.filter (fun p => p.1 != a) rest := by simp
      rw [hfil, ih]
      show lookupAttr rest k' = if a = k' then some b else lookupAttr rest k'
      rw [if_neg fun hk => h hk.symm]
    · rcases p with ⟨a, b⟩
      have ha : ¬a = k := hp
      have hfil :
          List.filter (fun p => p.1 != k) ((a, b) :: rest) =
            (a, b) :: List.filter (fun p => p.1 != k) rest := by simp [ha]
      rw [hfil]
      show (if a = k' then some b else _) = _
      by_cases hak : a = k' <;> simp [lookupAttr, hak, ih]

theorem lookupAttr_filter_self (l : List (String × String)) (k : String) :
    lookupAttr (l.filter (fun p => p.1 != k)) k = none := by
  induction l with
  | nil => rfl
  | cons p rest ih =>
    by_cases hp : p.1 = k
    · have : (p.1 != k) = false := by simp [hp]
      simp [List.filter, this, ih]
    · have : (p.1 != k) = true := by simp [hp]
      simp [List.filter, this, lookupAttr, hp, ih]

theorem delAttr_tag (e : Elem) (k : String) : (e.delAttr k).tag = e.tag := by
  cases e; rfl

theorem delAttr_text (e : Elem) (k : String) : (e.delAttr k).text = e.text := by
  cases e; rfl

theorem delAttr_children (e : Elem) (k : String) :
    (e.delAttr k).children = e.children := by
  cases e; rfl

theorem delAttr_attrib (e : Elem) (k : String) :
    (e.delAttr k).attrib = e.attrib.filter (fun p => p.1 != k) := by
  cases e; rfl

theorem lookupAttr_delAttr_self (e : Elem) (k : String) :
    lookupAttr (e.delAttr k).attrib k = none := by
  rw [delAttr_attrib]; exact lookupAttr_filter_self _ _

theorem lookupAttr_delAttr_ne (e : Elem) (k k' : String) (h : k' ≠ k) :
    lookupAttr (e.delAttr k).attrib k' = lookupAttr e.attrib k' := by
  rw [delAttr_attrib]; exact lookupAttr_filter_ne _ _ _ h

theorem stripSans_tag (e : Elem) : (stripSans e).tag = e.tag := by
  unfold stripSans; split
  · exact delAttr_tag e _
  · rfl

theorem stripSans_lang (e : Elem) :
    lookupAttr (stripSans e).attrib "lang" = lookupAttr e.attrib "lang" := by
  unfold stripSans; split
  · exact lookupAttr_delAttr_ne e _ _ (by decide)
  · rfl

theorem stripSans_of_family (e : Elem) (htag : e.tag = "family") :
    stripSans e =
      (if lookupAttr e.attrib "name" = some "sans-serif" then
        e.delAttr "name" else e) := by
  unfold stripSans
  by_cases hname : lookupAttr e.attrib "name" = some "sans-serif" <;>
    simp [htag, hname]

theorem stripSans_of_not_family (e : Elem) (htag : ¬e.tag = "family") :
    stripSans e = e := by
  unfold stripSans; simp [htag]

theorem countFamilies_nil : countFamilies [] = 0 := rfl

theorem countFamilies_cons (x : Elem) (l : List Elem) :
    countFamilies (x :: l) =
      (if x.tag = "family" then 1 else 0) + countFamilies l := by
  by_cases h : x.tag = "family" <;> simp [countFamilies, h, Nat.add_comm]

theorem anyFamilyLang_cons (x : Elem) (l : List Elem) :
    anyFamilyLang (x :: l) =
      ((x.tag == "family" && (lookupAttr x.attrib "lang").isSome) ||
        anyFamilyLang l) := by
  simp [anyFamilyLang]

/-- Once the flag is set (line 75), the loop only strips `sans-serif`
names; every child passes through in order with nothing inserted. -/
theorem processChildren_true (fname : String) (cs : List Elem) :
    processChildren fname true cs = cs.map stripSans := by
  induction cs with
  | nil => rfl
  | cons child rest ih =>
    by_cases htag : child.tag = "family"
    · simp only [processChildren, htag, if_true]
      rw [← stripSans_of_family child htag]
      simp only [show ((lookupAttr (stripSans child).attrib "lang").isSome ∧
          true = false) = False by simp, if_false, List.map]
      rw [ih]
    · simp only [processChildren, htag, if_false, List.map,
        stripSans_of_not_family child htag, ih]

/-- With the flag still unset, a run of children none of which is a
`family` carrying `lang` is passed through with only name stripping. -/
theorem processChildren_false_of_noLang (fname : String) (cs : List Elem)
    (h : ∀ d ∈ cs, ¬(d.tag = "family" ∧ (lookupAttr d.attrib "lang").isSome)) :
    processChildren fname false cs = cs.map stripSans := by
  induction cs with
  | nil => rfl
  | cons child rest ih =>
    have hrest := fun d hd => h d (List.mem_cons_of_mem _ hd)
    by_cases htag : child.tag = "family"
    · have hlang : (lookupAttr child.attrib "lang").isSome = false := by
        rcases hx : (lookupAttr child.attrib "lang").isSome with _ | _
        · rfl
        · exact absurd ⟨htag, hx⟩ (h child (List.mem_cons_self _ _))
      simp only [processChildren, htag, if_true]
      rw [← stripSans_of_family child htag, ih hrest]
      simp [stripSans_lang, hlang]
    · simp only [processChildren, htag, if_false, List.map,
        stripSans_of_not_family child htag, ih hrest]

/-- The insertion case of the loop: the first `family` child carrying a
`lang` attribute gets the `zh-Hans` family inserted immediately before
it, and everything after is only name-stripped. -/
theorem processChildren_false_split (fname : String) (pre : List Elem)
    (c : Elem) (post : List Elem)
    (htag : c.tag = "family")
    (hlang : (lookupAttr c.attrib "lang").isSome = true)
    (hpre : ∀ d ∈ pre, ¬(d.tag = "family" ∧ (lookupAttr d.attrib "lang").isSome)) :
    processChildren fname false (pre ++ c :: post) =
      pre.map stripSans ++
        family_with_lang fname :: stripSans c :: post.map stripSans := by
  induction pre with
  | nil =>
    simp only [List.nil_append]
    simp only [processChildren, htag, if_true]
    rw [← stripSans_of_family c htag, processChildren_true]
    simp [stripSans_lang, hlang]
  | cons d pre ih =>
    have hdrest := fun e he => hpre e (List.mem_cons_of_mem _ he)
    have hih := ih hdrest
    by_cases hdtag : d.tag = "family"
    · have hdlang : (lookupAttr d.attrib "lang").isSome = false := by
        rcases hx : (lookupAttr d.attrib "lang").isSome with _ | _
        · rfl
        · exact absurd ⟨hdtag, hx⟩ (hpre d (List.mem_cons_self _ _))
      simp only [List.cons_append, processChildren, hdtag, if_true]
      rw [← stripSans_of_family d hdtag]
      simp only [List.append_eq] at *
      rw [hih]
      simp [stripSans_lang, hdlang]
    · simp only [List.cons_append, processChildren, hdtag, if_false,
        List.map, List.cons_append, stripSans_of_not_family d hdtag]
      simp only [List.append_eq] at *
      rw [hih]

/-- Every original child survives the loop (possibly name-stripped). -/
theorem stripSans_mem_processChildren (fname : String) (cs : List Elem)
    (c : Elem) (hc : c ∈ cs) (b : Bool) :
    stripSans c ∈ processChildren fname b cs := by
  induction cs generalizing b with
  | nil => cases hc
  | cons child rest ih =>
    rcases List.mem_cons.mp hc with rfl | hmem
    · by_cases htag : c.tag = "family"
      · simp only [processChildren, htag, if_true]
        rw [← stripSans_of_family c htag]
        split
        · exact List.mem_cons_of_mem _ (List.mem_cons_self _ _)
        · exact List.mem_cons_self _ _
      · simp only [processChildren, htag, if_false,
          stripSans_of_not_family c htag]
        exact List.mem_cons_self _ _
    · by_cases htag : child.tag = "family"
      · simp only [processChildren, htag, if_true]
        split <;> split
        · exact List.mem_cons_of_mem _ (List.mem_cons_of_mem _ (ih hmem true))
        · exact List.mem_cons_of_mem _ (ih hmem _)
        · exact List.mem_cons_of_mem _ (List.mem_cons_of_mem _ (ih hmem true))
        · exact List.mem_cons_of_mem _ (ih hmem _)
      · simp only [processChildren, htag, if_false]
        exact List.mem_cons_of_mem _ (ih hmem b)

theorem family_with_lang_tag (fname : String) :
    (family_with_lang fname).tag = "family" := rfl

theorem family_with_lang_lang (fname : String) :
    lookupAttr (family_with_lang fname).attrib "lang" = some "zh-Hans" := rfl

theorem countFamilies_map_stripSans (l : List Elem) :
    countFamilies (l.map stripSans) = countFamilies l := by
  induction l with
  | nil => rfl
  | cons x l ih => simp only [List.map, countFamilies_cons, stripSans_tag, ih]

/-- Family count through the loop: one extra `family` appears exactly
when the flag is unset and some `family` child carries `lang`. -/
theorem countFamilies_processChildren (fname : String) (cs : List Elem)
    (b : Bool) :
    countFamilies (processChildren fname b cs) =
      countFamilies cs +
        (if b = false ∧ anyFamilyLang cs = true then 1 else 0) := by
  induction cs generalizing b with
  | nil => simp [processChildren, countFamilies, anyFamilyLang]
  | cons child rest ih =>
    by_cases htag : child.tag = "family"
    · simp only [processChildren, htag, if_true]
      rw [← stripSans_of_family child htag]
      by_cases hlang : (lookupAttr child.attrib "lang").isSome = true
      · cases b with
        | false =>
          rw [if_pos ⟨by rw [stripSans_lang]; exact hlang, rfl⟩,
            processChildren_true]
          simp [countFamilies_cons, family_with_lang_tag, stripSans_tag,
            htag, countFamilies_map_stripSans, anyFamilyLang_cons, hlang]
          omega
        | true =>
          rw [if_neg (by simp), countFamilies_cons, ih]
          simp [countFamilies_cons, stripSans_tag, htag]
      · have hl : (lookupAttr child.attrib "lang").isSome = false := by
          simpa using hlang
        rw [if_neg (by rw [stripSans_lang, hl]; simp), countFamilies_cons, ih]
        simp [countFamilies_cons, stripSans_tag, htag, anyFamilyLang_cons, hl]
        omega
    · simp only [processChildren, htag, if_false]
      rw [countFamilies_cons, countFamilies_cons, ih]
      simp [htag, anyFamilyLang_cons]

/-! ## Claims -/

/-- C1, counterexample.  The claim states that a base document with N
top-level family children and no child carrying `lang` yields exactly
N + 1 top-level family children.  On the empty base document (N = 0,
no child at all, hence none carrying `lang`) the transform emits the
fallback family and the custom family, so the output has 2 family
children, not 1. -/
theorem C1_counterexample :
    countFamilies (Elem.mk "familyset" [("version", "21")] none []).children = 0 ∧
    (Elem.mk "familyset" [("version", "21")] none []).children.any
      (fun e => (lookupAttr e.attrib "lang").isSome) = false ∧
    countFamilies
      (parse_font_xml (Elem.mk "familyset" [("version", "21")] none [])
        "a.ttf").children = 2 ∧
    (2 : Nat) ≠ 0 + 1 :=
  ⟨rfl, rfl, rfl, by decide⟩

/-- C1 (amended): for every base document with N top-level family
children, the output has exactly N + 3 top-level family children if at
least one top-level family child carries a `lang` attribute, and exactly
N + 2 otherwise. -/
theorem C1_family_child_count (root : Elem) (fname : String) :
    countFamilies (parse_font_xml root fname).children =
      countFamilies root.children +
        (if anyFamilyLang root.children = true then 3 else 2) := by
  show countFamilies (sans_serif_family :: custom_family fname ::
      processChildren fname false root.children) = _
  rw [countFamilies_cons, countFamilies_cons,
    countFamilies_processChildren]
  by_cases h : anyFamilyLang root.children = true <;>
    simp [h, sans_serif_family, custom_family, Elem.tag] <;> omega

/-- C2, counterexample.  The claim positions the inserted `zh-Hans`
family immediately before the first original top-level child carrying a
`lang` attribute.  The loop only considers `family`-tagged children, so
when a non-family child (here an `alias` element) is the first carrier
of `lang`, the insertion happens later, before the first family child
with `lang`.  In the output below the first original `lang` carrier is
the `alias` element at position 2, its immediate predecessor is the
custom family (which carries no `lang` attribute at all), and the
inserted `zh-Hans` family sits after it at position 3. -/
theorem C2_counterexample :
    (Elem.mk "familyset" [("version", "21")] none
        [Elem.mk "alias" [("lang", "x")] none [],
         Elem.mk "family" [("lang", "ja")] none []]).children.findIdx
      (fun e => (lookupAttr e.attrib "lang").isSome) = 0 ∧
    (parse_font_xml
        (Elem.mk "familyset" [("version", "21")] none
          [Elem.mk "alias" [("lang", "x")] none [],
           Elem.mk "family" [("lang", "ja")] none []]) "a.ttf").children =
      [sans_serif_family, custom_family "a.ttf",
       Elem.mk "alias" [("lang", "x")] none [],
       family_with_lang "a.ttf",
       Elem.mk "family" [("lang", "ja")] none []] ∧
    lookupAttr (custom_family "a.ttf").attrib "lang" = none ∧
    lookupAttr (family_with_lang "a.ttf").attrib "lang" = some "zh-Hans" :=
  ⟨rfl, rfl, rfl, rfl⟩

/-- C2 (amended): exactly one `lang="zh-Hans"` family is inserted,
immediately before (the name-stripped image of) the first original
top-level family child that carries a `lang` attribute, and no family
is inserted when no family child carries a `lang` attribute.  The two
conjuncts pin the whole output child list in either case. -/
theorem C2_zh_hans_insertion (fname t : String)
    (rattrs : List (String × String)) (rtext : Option String) :
    (∀ cs : List Elem,
      (∀ d ∈ cs, ¬(d.tag = "family" ∧ (lookupAttr d.attrib "lang").isSome)) →
      (parse_font_xml (.mk t rattrs rtext cs) fname).children =
        sans_serif_family :: custom_family fname :: cs.map stripSans) ∧
    (∀ pre c post, c.tag = "family" →
      (lookupAttr c.attrib "lang").isSome = true →
      (∀ d ∈ pre, ¬(d.tag = "family" ∧ (lookupAttr d.attrib "lang").isSome)) →
      (parse_font_xml (.mk t rattrs rtext (pre ++ c :: post)) fname).children =
        sans_serif_family :: custom_family fname ::
          (pre.map stripSans ++
            family_with_lang fname :: stripSans c :: post.map stripSans)) := by
  constructor
  · intro cs hnolang
    show sans_serif_family :: custom_family fname ::
        processChildren fname false cs = _
    rw [processChildren_false_of_noLang fname cs hnolang]
  · intro pre c post htag hlang hpre
    show sans_serif_family :: custom_family fname ::
        processChildren fname false (pre ++ c :: post) = _
    rw [processChildren_false_split fname pre c post htag hlang hpre]

/-- Witness for C2: both conjuncts applied at concrete inputs — a lone
family without `lang` (no insertion), and a lone family with
`lang="ja"` (insertion directly before it). -/
theorem C2_zh_hans_insertion_witness :
    (parse_font_xml (.mk "familyset" [("version", "21")] none
        [Elem.mk "family" [] none []]) "a.ttf").children =
      sans_serif_family :: custom_family "a.ttf" ::
        [Elem.mk "family" [] none []].map stripSans ∧
    (parse_font_xml (.mk "familyset" [("version", "21")] none
        ([] ++ Elem.mk "family" [("lang", "ja")] none [] :: [])) "a.ttf").children =
      sans_serif_family :: custom_family "a.ttf" ::
        ([].map stripSans ++
          family_with_lang "a.ttf" ::
            stripSans (Elem.mk "family" [("lang", "ja")] none []) ::
              [].map stripSans) :=
  ⟨(C2_zh_hans_insertion "a.ttf" "familyset" [("version", "21")] none).1
      [Elem.mk "family" [] none []]
      (by
        intro d hd
        rw [List.mem_singleton] at hd
        subst hd
        rintro ⟨_, hl⟩
        exact absurd hl (by decide)),
   (C2_zh_hans_insertion "a.ttf" "familyset" [("version", "21")] none).2
      [] (Elem.mk "family" [("lang", "ja")] none []) [] rfl rfl
      (by intro d hd; cases hd)⟩

/-- C3: every top-level family child that originally carried
`name="sans-serif"` (not only the first) appears in the output with
that attribute removed and every other attribute (and its tag, text and
children) unchanged. -/
theorem C3_sans_serif_names_stripped (root : Elem) (fname : String)
    (c : Elem) (hc : c ∈ root.children) (htag : c.tag = "family")
    (hname : lookupAttr c.attrib "name" = some "sans-serif") :
    c.delAttr "name" ∈ (parse_font_xml root fname).children ∧
    lookupAttr (c.delAttr "name").attrib "name" = none ∧
    (∀ k, k ≠ "name" →
      lookupAttr (c.delAttr "name").attrib k = lookupAttr c.attrib k) ∧
    (c.delAttr "name").tag = c.tag ∧
    (c.delAttr "name").text = c.text ∧
    (c.delAttr "name").children = c.children := by
  refine ⟨?_, lookupAttr_delAttr_self c "name",
    fun k hk => lookupAttr_delAttr_ne c "name" k hk,
    delAttr_tag c "name", delAttr_text c "name", delAttr_children c "name"⟩
  have hmem := stripSans_mem_processChildren fname root.children c hc false
  rw [stripSans_of_family c htag, if_pos hname] at hmem
  show c.delAttr "name" ∈ sans_serif_family :: custom_family fname ::
    processChildren fname false root.children
  exact List.mem_cons_of_mem _ (List.mem_cons_of_mem _ hmem)

/-- Witness for C3: a document with two `sans-serif` families; the
second one (extra attribute kept) is stripped as well. -/
theorem C3_sans_serif_names_stripped_witness :
    (Elem.mk "family" [("name", "sans-serif"), ("variant", "compact")] none
        []).delAttr "name" ∈
      (parse_font_xml
        (Elem.mk "familyset" [("version", "21")] none
          [Elem.mk "family" [("name", "sans-serif")] none [],
           Elem.mk "family" [("name", "sans-serif"), ("variant", "compact")]
             none []]) "a.ttf").children ∧
    lookupAttr ((Elem.mk "family"
        [("name", "sans-serif"), ("variant", "compact")] none
          []).delAttr "name").attrib "name" = none ∧
    (∀ k, k ≠ "name" →
      lookupAttr ((Elem.mk "family"
          [("name", "sans-serif"), ("variant", "compact")] none
            []).delAttr "name").attrib k =
        lookupAttr (Elem.mk "family"
          [("name", "sans-serif"), ("variant", "compact")] none []).attrib k) ∧
    ((Elem.mk "family" [("name", "sans-serif"), ("variant", "compact")] none
        []).delAttr "name").tag =
      (Elem.mk "family" [("name", "sans-serif"), ("variant", "compact")] none
        []).tag ∧
    ((Elem.mk "family" [("name", "sans-serif"), ("variant", "compact")] none
        []).delAttr "name").text =
      (Elem.mk "family" [("name", "sans-serif"), ("variant", "compact")] none
        []).text ∧
    ((Elem.mk "family" [("name", "sans-serif"), ("variant", "compact")] none
        []).delAttr "name").children =
      (Elem.mk "family" [("name", "sans-serif"), ("variant", "compact")] none
        []).children :=
  C3_sans_serif_names_stripped
    (Elem.mk "familyset" [("version", "21")] none
      [Elem.mk "family" [("name", "sans-serif")] none [],
       Elem.mk "family" [("name", "sans-serif"), ("variant", "compact")]
         none []]) "a.ttf"
    (Elem.mk "family" [("name", "sans-serif"), ("variant", "compact")] none [])
    (List.mem_cons_of_mem _ (List.mem_cons_self _ _)) rfl rfl

/-- C4: for every invocation, the custom family appended second carries
no attribute at all (in particular neither `name` nor `lang`) and holds
exactly 9 faces; face i is a `font` element with weight 100·(i+1),
style `normal`, and text equal to the basename of the supplied font
file path. -/
theorem C4_custom_family_faces (root : Elem) (fontPath : String) :
    (parse_font_xml root (basename fontPath)).children.get? 1 =
      some (custom_family (basename fontPath)) ∧
    (custom_family (basename fontPath)).attrib = [] ∧
    lookupAttr (custom_family (basename fontPath)).attrib "name" = none ∧
    lookupAttr (custom_family (basename fontPath)).attrib "lang" = none ∧
    (custom_family (basename fontPath)).children.length = 9 ∧
    (custom_family (basename fontPath)).children.map
        (fun e => (e.tag, lookupAttr e.attrib "weight",
          lookupAttr e.attrib "style", e.text)) =
      [("font", some "100", some "normal", some (basename fontPath)),
       ("font", some "200", some "normal", some (basename fontPath)),
       ("font", some "300", some "normal", some (basename fontPath)),
       ("font", some "400", some "normal", some (basename fontPath)),
       ("font", some "500", some "normal", some (basename fontPath)),
       ("font", some "600", some "normal", some (basename fontPath)),
       ("font", some "700", some "normal", some (basename fontPath)),
       ("font", some "800", some "normal", some (basename fontPath)),
       ("font", some "900", some "normal", some (basename fontPath))] :=
  ⟨rfl, rfl, rfl, rfl, rfl, rfl⟩

/-- C6: the fallback family appended first carries
`name="sans-serif"` and holds exactly 12 faces, one per combination of
weight in {100,300,400,500,700,900} and style in {normal,italic}, each
with a placeholder text of the shape `EmptyFont-….ttf`. -/
theorem C6_fallback_family (root : Elem) (fname : String) :
    (parse_font_xml root fname).children.get? 0 = some sans_serif_family ∧
    lookupAttr sans_serif_family.attrib "name" = some "sans-serif" ∧
    sans_serif_family.children.length = 12 ∧
    (sans_serif_family.children.map
        (fun e => (e.tag, lookupAttr e.attrib "weight",
          lookupAttr e.attrib "style", e.text))).Perm
      [("font", some "100", some "normal",
          some ("EmptyFont-" ++ "Thin" ++ ".ttf")),
       ("font", some "100", some "italic",
          some ("EmptyFont-" ++ "ThinItalic" ++ ".ttf")),
       ("font", some "300", some "normal",
          some ("EmptyFont-" ++ "Light" ++ ".ttf")),
       ("font", some "300", some "italic",
          some ("EmptyFont-" ++ "LightItalic" ++ ".ttf")),
       ("font", some "400", some "normal",
          some ("EmptyFont-" ++ "Regular" ++ ".ttf")),
       ("font", some "400", some "italic",
          some ("EmptyFont-" ++ "Italic" ++ ".ttf")),
       ("font", some "500", some "normal",
          some ("EmptyFont-" ++ "Medium" ++ ".ttf")),
       ("font", some "500", some "italic",
          some ("EmptyFont-" ++ "MediumItalic" ++ ".ttf")),
       ("font", some "700", some "normal",
          some ("EmptyFont-" ++ "Bold" ++ ".ttf")),
       ("font", some "700", some "italic",
          some ("EmptyFont-" ++ "BoldItalic" ++ ".ttf")),
       ("font", some "900", some "normal",
          some ("EmptyFont-" ++ "Black" ++ ".ttf")),
       ("font", some "900", some "italic",
          some ("EmptyFont-" ++ "BlackItalic" ++ ".ttf"))] :=
  ⟨rfl, rfl, rfl, by decide⟩

/-- C5: for a base document holding one `sans-serif`-named family and
one `lang="ja"` family, and font file `MyFont.ttf`, the output children
are, in order: fallback family, custom family, the original family with
its `name` attribute removed, the inserted `zh-Hans` family, and the
untouched `ja` family. -/
theorem C5_example_order (a b : Elem) (rattrs : List (String × String))
    (rtext : Option String)
    (haTag : a.tag = "family")
    (haName : lookupAttr a.attrib "name" = some "sans-serif")
    (haLang : lookupAttr a.attrib "lang" = none)
    (hbTag : b.tag = "family")
    (hbName : ¬lookupAttr b.attrib "name" = some "sans-serif")
    (hbLang : lookupAttr b.attrib "lang" = some "ja") :
    (parse_font_xml (.mk "familyset" rattrs rtext [a, b]) "MyFont.ttf").children =
      [sans_serif_family, custom_family "MyFont.ttf", a.delAttr "name",
       family_with_lang "MyFont.ttf", b] := by
  show sans_serif_family :: custom_family "MyFont.ttf" ::
      processChildren "MyFont.ttf" false [a, b] = _
  have hsplit := processChildren_false_split "MyFont.ttf" [a] b []
    hbTag (by rw [hbLang]; rfl)
    (by
      intro d hd
      rw [List.mem_singleton] at hd
      subst hd
      rintro ⟨_, hl⟩
      rw [haLang] at hl
      exact absurd hl (by decide))
  simp only [List.cons_append, List.nil_append, List.map, List.map_nil] at hsplit
  rw [hsplit, stripSans_of_family a haTag, if_pos haName,
    stripSans_of_family b hbTag, if_neg hbName]

/-- Witness for C5 at a concrete document. -/
theorem C5_example_order_witness :
    (parse_font_xml
        (Elem.mk "familyset" [("version", "21")] none
          [Elem.mk "family" [("name", "sans-serif")] none [],
           Elem.mk "family" [("lang", "ja")] none []]) "MyFont.ttf").children =
      [sans_serif_family, custom_family "MyFont.ttf",
       (Elem.mk "family" [("name", "sans-serif")] none []).delAttr "name",
       family_with_lang "MyFont.ttf",
       Elem.mk "family" [("lang", "ja")] none []] :=
  C5_example_order (Elem.mk "family" [("name", "sans-serif")] none [])
    (Elem.mk "family" [("lang", "ja")] none [])
    [("version", "21")] none rfl rfl rfl rfl (by decide) rfl

/-- C10: a family child carrying both `name="sans-serif"` and a `lang`
attribute, met while the insertion flag is still unset, triggers both
rules at once: the `zh-Hans` family is emitted first, the name-stripped
child directly after it, and the loop continues with the flag set. -/
theorem C10_both_rules_single_pass (fname : String) (c : Elem)
    (rest : List Elem)
    (htag : c.tag = "family")
    (hname : lookupAttr c.attrib "name" = some "sans-serif")
    (hlang : (lookupAttr c.attrib "lang").isSome = true) :
    processChildren fname false (c :: rest) =
      family_with_lang fname :: c.delAttr "name" ::
        processChildren fname true rest := by
  simp [processChildren, htag, hname,
    lookupAttr_delAttr_ne c "name" "lang" (by decide), hlang]

/-- Witness for C10 at a concrete child. -/
theorem C10_both_rules_single_pass_witness :
    processChildren "a.ttf" false
      [Elem.mk "family" [("name", "sans-serif"), ("lang", "zh-CN")] none []] =
      family_with_lang "a.ttf" ::
        (Elem.mk "family" [("name", "sans-serif"), ("lang", "zh-CN")] none
          []).delAttr "name" ::
          processChildren "a.ttf" true [] :=
  C10_both_rules_single_pass "a.ttf"
    (Elem.mk "family" [("name", "sans-serif"), ("lang", "zh-CN")] none [])
    [] rfl rfl rfl

/-- C8: when the font file path does not reference an existing file,
the program exits with code -1 before the staging directory is created
(and hence before any packaging effect, in particular before an archive
is written). -/
theorem C8_missing_font_fails_before_staging (env : Env)
    (h : env.fontExists = false) :
    Event.exited (-1) ∈ mainEvents env ∧
    Event.tempDirCreated ∉ mainEvents env ∧
    Event.archiveWritten ∉ mainEvents env := by
  unfold mainEvents
  rw [if_pos (Or.inr h)]
  by_cases hc : env.fontConfigExists = true <;> simp [hc]

/-- Witness for C8: an otherwise fully functional run with a missing
font file. -/
theorem C8_missing_font_fails_before_staging_witness :
    Event.exited (-1) ∈
      mainEvents ⟨true, true, false, true, true, true, true, true, true⟩ ∧
    Event.tempDirCreated ∉
      mainEvents ⟨true, true, false, true, true, true, true, true, true⟩ ∧
    Event.archiveWritten ∉
      mainEvents ⟨true, true, false, true, true, true, true, true, true⟩ :=
  C8_missing_font_fails_before_staging
    ⟨true, true, false, true, true, true, true, true, true⟩ rfl

/-- C9: a parse failure aborts packaging with no archive produced (in
`package_module` and in the whole program run), and an archive event
can only occur after the template copy, the font copy, the
`module.prop` write, the parse and the `fonts.xml` write have all
succeeded. -/
theorem C9_archive_only_after_all_steps (env : Env) :
    (env.parseOk = false →
      Event.archiveWritten ∉ (packageModuleRun env).1 ∧
      (packageModuleRun env).2 = false ∧
      Event.archiveWritten ∉ mainEvents env) ∧
    (Event.archiveWritten ∈ (packageModuleRun env).1 →
      env.copytreeOk = true ∧ env.copyFontOk = true ∧
      env.propWriteOk = true ∧ env.parseOk = true ∧
      env.xmlWriteOk = true) := by
  obtain ⟨fc, fa, fe, ct, cf, pw, po, xw, ao⟩ := env
  cases fc <;> cases fa <;> cases fe <;> cases ct <;> cases cf <;>
    cases pw <;> cases po <;> cases xw <;> cases ao <;> decide

/-- Witness for C9: the abort conjunct on a run whose parse fails, and
the ordering conjunct on a fully successful run. -/
theorem C9_archive_only_after_all_steps_witness :
    (Event.archiveWritten ∉
        (packageModuleRun ⟨true, true, true, true, true, true, false, true,
          true⟩).1 ∧
      (packageModuleRun ⟨true, true, true, true, true, true, false, true,
        true⟩).2 = false ∧
      Event.archiveWritten ∉
        mainEvents ⟨true, true, true, true, true, true, false, true, true⟩) ∧
    (Env.copytreeOk ⟨true, true, true, true, true, true, true, true, true⟩ =
        true ∧
      Env.copyFontOk ⟨true, true, true, true, true, true, true, true, true⟩ =
        true ∧
      Env.propWriteOk ⟨true, true, true, true, true, true, true, true, true⟩ =
        true ∧
      Env.parseOk ⟨true, true, true, true, true, true, true, true, true⟩ =
        true ∧
      Env.xmlWriteOk ⟨true, true, true, true, true, true, true, true, true⟩ =
        true) :=
  ⟨(C9_archive_only_after_all_steps
      ⟨true, true, true, true, true, true, false, true, true⟩).1 rfl,
   (C9_archive_only_after_all_steps
      ⟨true, true, true, true, true, true, true, true, true⟩).2 (by decide)⟩

end FontModule
